import Mathlib

/-!
Verification of the numerical core of the Option-Implied-PDF-Visualizer
repository (volatility-surface calibration in `src/core/sabr.py`, the
Breeden-Litzenberger extraction in `src/core/breeden_litz.py`, the statistics
engine in `src/core/statistics.py`, and pattern matching in
`src/core/patterns.py`).

Modelling conventions.  Market quantities (strikes, prices, implied vols,
densities) are embedded as exact rationals; the handful of genuinely
real-valued library calls that the verified control flow never inspects
numerically are abstracted as explicit parameters, each documented at its
declaration:
  * `scipy.optimize.minimize` outcomes become `OptResult` values,
  * the Hagan SABR formula, the cubic-spline evaluator and the Black-Scholes
    pricer (all built from exp/log/Phi) become function parameters,
  * `scipy.signal.savgol_filter` becomes a function parameter (the code
    re-clips its output, so no verified property depends on its values),
  * the discount factor `e^(r T)` becomes the parameter `expRT`.
Python exceptions are embedded as `Except String`; a float division whose
denominator is exactly zero (which produces nan/inf in numpy) is embedded as
`Option.none` where the source performs it unguarded.
-/

namespace OIPV

/-- Embedding of `np.trapz` / `scipy.integrate.trapezoid` for sample values
`y` at sample points `x`: the sum of `(y i + y (i+1)) / 2 * (x (i+1) - x i)`. -/
def trapezoid : List ℚ → List ℚ → ℚ
  | y1 :: y2 :: ys, x1 :: x2 :: xs =>
      (y1 + y2) / 2 * (x2 - x1) + trapezoid (y2 :: ys) (x2 :: xs)
  | _, _ => 0

/-- Helper for `cumtrapz`: accumulates the running trapezoidal sums after the
leading `0`. -/
def cumtrapzGo (acc y0 x0 : ℚ) : List ℚ → List ℚ → List ℚ
  | y1 :: ys, x1 :: xs =>
      (acc + (y0 + y1) / 2 * (x1 - x0)) ::
        cumtrapzGo (acc + (y0 + y1) / 2 * (x1 - x0)) y1 x1 ys xs
  | _, _ => []

/-- Embedding of `scipy.integrate.cumulative_trapezoid(y, x, initial=0)`:
the list of running trapezoidal integrals, starting at `0`. -/
def cumtrapz (y x : List ℚ) : List ℚ :=
  match y, x with
  | y0 :: ys, x0 :: xs => 0 :: cumtrapzGo 0 y0 x0 ys xs
  | _, _ => []

/-- Interior stencil of `np.gradient(y, x)` for possibly non-uniform spacing
(second-order accurate three-point formula used by numpy). -/
def gradInterior : List ℚ → List ℚ → List ℚ
  | y0 :: y1 :: y2 :: ys, x0 :: x1 :: x2 :: xs =>
      ((x1 - x0) * (x1 - x0) * y2
        + ((x2 - x1) * (x2 - x1) - (x1 - x0) * (x1 - x0)) * y1
        - (x2 - x1) * (x2 - x1) * y0)
        / ((x1 - x0) * (x2 - x1) * ((x1 - x0) + (x2 - x1)))
      :: gradInterior (y1 :: y2 :: ys) (x1 :: x2 :: xs)
  | _, _ => []

/-- One-sided slope over the last two samples, used for the trailing edge of
`np.gradient` (default `edge_order=1`). -/
def lastSlope : List ℚ → List ℚ → ℚ
  | [ya, yb], [xa, xb] => (yb - ya) / (xb - xa)
  | _ :: y :: ys, _ :: x :: xs => lastSlope (y :: ys) (x :: xs)
  | _, _ => 0

/-- Embedding of `np.gradient(y, x)` with numpy defaults (`edge_order=1`):
one-sided differences at both edges, the non-uniform second-order stencil in
the interior.  numpy rejects arrays shorter than 2; those cases return `[]`
here and are never reached on the verified paths. -/
def gradient (y x : List ℚ) : List ℚ :=
  match y, x with
  | y0 :: y1 :: ys, x0 :: x1 :: xs =>
      ((y1 - y0) / (x1 - x0))
        :: (gradInterior (y0 :: y1 :: ys) (x0 :: x1 :: xs)
            ++ [lastSlope (y0 :: y1 :: ys) (x0 :: x1 :: xs)])
  | _, _ => []

/-- Embedding of `np.linspace(a, b, n)`: `n` equally spaced points from `a`
to `b` inclusive. -/
def linspace (a b : ℚ) (n : ℕ) : List ℚ :=
  if n = 1 then [a]
  else (List.range n).map (fun i : ℕ => a + (b - a) * (i : ℚ) / ((n : ℚ) - 1))

/-- Recursion for `np.interp` over the zipped `(x, y)` sample pairs: clamps
to the first/last sample value outside the data range, linear in between
(numpy assumes the x-samples are increasing). -/
def interpPts : List (ℚ × ℚ) → ℚ → ℚ
  | [], _ => 0
  | [p], _ => p.2
  | p :: q :: rest, t =>
      if t ≤ p.1 then p.2
      else if t ≤ q.1 then p.2 + (q.2 - p.2) * (t - p.1) / (q.1 - p.1)
      else interpPts (q :: rest) t

/-- Embedding of `np.interp(t, xp, fp)`. -/
def npInterp (t : ℚ) (xp fp : List ℚ) : ℚ :=
  interpPts (xp.zip fp) t

/-- Recursion for `scipy.interpolate.interp1d(..., kind='linear',
fill_value='extrapolate')`: like `np.interp` but extrapolating linearly from
the first/last segment instead of clamping. -/
def interpExtrapPts : List (ℚ × ℚ) → ℚ → ℚ
  | [], _ => 0
  | [p], _ => p.2
  | [p, q], t => p.2 + (q.2 - p.2) * (t - p.1) / (q.1 - p.1)
  | p :: q :: r :: rest, t =>
      if t ≤ q.1 then p.2 + (q.2 - p.2) * (t - p.1) / (q.1 - p.1)
      else interpExtrapPts (q :: r :: rest) t

/-- Embedding of the linear-extrapolating `interp1d` evaluator used by
`BreedenlitzenbergPDF.get_probability`. -/
def interpExtrap (t : ℚ) (xp fp : List ℚ) : ℚ :=
  interpExtrapPts (xp.zip fp) t

/-- Embedding of `numpy.ndarray.min()` (0 on the empty list, which numpy
rejects). -/
def listMin : List ℚ → ℚ
  | [] => 0
  | x :: xs => xs.foldl min x

/-- Embedding of `numpy.ndarray.max()` (0 on the empty list, which numpy
rejects). -/
def listMax : List ℚ → ℚ
  | [] => 0
  | x :: xs => xs.foldl max x

/-- Dot product of two equally long sample vectors (`np.dot`). -/
def dotList : List ℚ → List ℚ → ℚ
  | a :: as', b :: bs => a * b + dotList as' bs
  | _, _ => 0

end OIPV

namespace OIPV

/-! ### Configuration constants (`config/constants.py`)

The spec (section 6) treats these as externally supplied configuration with
the stated defaults, so the extractor below takes a `Config` record;
`defaultConfig` is the verbatim content of `config/constants.py`. -/

/-- Configuration constants consumed by the PDF extractor. -/
structure Config where
  minStrikesForPDF : ℕ
  pdfGridPoints : ℕ
  minStrikePct : ℚ
  maxStrikePct : ℚ
deriving DecidableEq

/-- Default values from `config/constants.py`: `MIN_STRIKES_FOR_PDF = 10`,
`PDF_GRID_POINTS = 500`, `MIN_STRIKE_PCT = 0.80`, `MAX_STRIKE_PCT = 1.20`. -/
def defaultConfig : Config :=
  { minStrikesForPDF := 10
    pdfGridPoints := 500
    minStrikePct := 4/5
    maxStrikePct := 6/5 }

/-- The constant `SABR_BETA = 0.5` from `config/constants.py`, used as the
default CEV exponent of `SABRModel.__init__`. -/
def SABR_BETA : ℚ := 1/2

/-! ### Volatility-surface calibration (`src/core/sabr.py`) -/

/-- Abstraction of one `scipy.optimize.minimize` outcome: the parameter
vector `x = (alpha, rho, nu)` it returns together with its `success` flag.
The optimizer itself is a numerical black box; both attempted runs
(Nelder-Mead, then L-BFGS-B) enter the embedding as explicit values. -/
structure OptResult where
  x1 : ℚ
  x2 : ℚ
  x3 : ℚ
  success : Bool
deriving DecidableEq

/-- Calibrated SABR state stored by `SABRModel.calibrate`: the parameters
taken from the optimizer result, the fixed `beta`, the forward and tau, and
the optimizer `success` flag reported in the fit statistics. -/
structure SabrFit where
  alpha : ℚ
  rho : ℚ
  nu : ℚ
  beta : ℚ
  forward : ℚ
  tau : ℚ
  success : Bool
deriving DecidableEq

/-- A calibrated volatility model, as returned by
`calibrate_volatility_surface`: either a `SABRModel` holding a `SabrFit`, or
a `CubicSplineInterpolator` holding the sorted filtered `(strike, iv)`
knots. -/
inductive VolModel where
  | sabr (fit : SabrFit)
  | spline (pts : List (ℚ × ℚ))
deriving DecidableEq

/-- The validity filter shared by `SABRModel.calibrate` and
`CubicSplineInterpolator.calibrate`:
`(implied_vols > 0) & (strikes > 0) & np.isfinite(implied_vols)` applied to
the zipped `(strike, iv)` pairs.  `np.isfinite` is identically true on exact
rationals. -/
def validPairs (strikes ivs : List ℚ) : List (ℚ × ℚ) :=
  (strikes.zip ivs).filter (fun p => decide (0 < p.2 ∧ 0 < p.1))

/-- Embedding of `SABRModel.calibrate`.  After filtering, fewer than 3 valid
points raises; otherwise the first optimizer attempt is used if it reports
success and the second attempt (the `L-BFGS-B` retry) is used otherwise, and
its parameter vector is stored unconditionally — the code never raises on an
unsuccessful optimization.  The rmse/mae fit diagnostics of the returned
dict are real-valued outputs not used by any verified property and are
omitted; the `success` flag is kept. -/
def sabrCalibrate (opt1 opt2 : OptResult) (beta : ℚ) (strikes ivs : List ℚ)
    (forward tau : ℚ) : Except String SabrFit :=
  if (validPairs strikes ivs).length < 3 then
    .error ("Need at least 3 valid strikes for calibration")
  else
    let result := if opt1.success then opt1 else opt2
    .ok { alpha := result.x1, rho := result.x2, nu := result.x3,
          beta := beta, forward := forward, tau := tau,
          success := result.success }

/-- Ordering used to embed the `np.argsort(strikes)` reordering inside
`CubicSplineInterpolator.calibrate`. -/
def pairLE (p q : ℚ × ℚ) : Prop := p.1 ≤ q.1

instance : DecidableRel pairLE := fun p q => inferInstanceAs (Decidable (p.1 ≤ q.1))

/-- The strictly-increasing test `scipy.interpolate.CubicSpline` runs on its
knot vector (`np.any(np.diff(x) <= 0)` negated). -/
def strictlyIncreasing : List ℚ → Bool
  | x :: y :: xs => decide (x < y) && strictlyIncreasing (y :: xs)
  | _ => true

/-- Embedding of `CubicSplineInterpolator.calibrate`: filter, sort by
strike, then construct `scipy.interpolate.CubicSpline`.  The constructor has
no minimum-three-points check of its own; it rejects fewer than 2 knots and
non-strictly-increasing knots (its two `ValueError`s, message text
abbreviated), and succeeds otherwise. -/
def splineCalibrate (strikes ivs : List ℚ) : Except String (List (ℚ × ℚ)) :=
  let sorted := List.insertionSort pairLE (validPairs strikes ivs)
  if sorted.length < 2 then
    .error ("x must contain at least 2 elements")
  else if strictlyIncreasing (sorted.map Prod.fst) then
    .ok sorted
  else
    .error ("x must be strictly increasing")

/-- Embedding of `calibrate_volatility_surface(strikes, implied_vols,
forward, tau, method)`: on `method='sabr'` any exception from
`SABRModel.calibrate` is caught and the spline path is run instead; on
`method='spline'` the spline path runs directly; any other method raises.
The second component of the result is the `success` entry of the returned
fit statistics (always `True` on the spline path). -/
def calibrate_volatility_surface (opt1 opt2 : OptResult) (beta : ℚ)
    (strikes ivs : List ℚ) (forward tau : ℚ) (method : String) :
    Except String (VolModel × Bool) :=
  if method = "sabr" then
    match sabrCalibrate opt1 opt2 beta strikes ivs forward tau with
    | .ok fit => .ok (.sabr fit, fit.success)
    | .error _ => (splineCalibrate strikes ivs).map (fun pts => (.spline pts, true))
  else if method = "spline" then
    (splineCalibrate strikes ivs).map (fun pts => (.spline pts, true))
  else
    .error ("Unknown method: " ++ method)

end OIPV

namespace OIPV

/-! ### Breeden-Litzenberger extraction (`src/core/breeden_litz.py`) -/

/-- One row of the `options_df` DataFrame consumed by
`BreedenlitzenbergPDF.calculate_from_options`: the columns `strike`, `price`
and `impliedVolatility`.  (The bid/ask mid-price branch of the source is dead
code: it requires the `price` column to be absent, and this model, like every
caller in the repository, always supplies it.) -/
structure OptionQuote where
  strike : ℚ
  price : ℚ
  iv : ℚ
deriving DecidableEq

/-- Ordering embedding `df.sort_values('strike')`. -/
def quoteLE (p q : OptionQuote) : Prop := p.strike ≤ q.strike

instance : DecidableRel quoteLE := fun p q => inferInstanceAs (Decidable (p.strike ≤ q.strike))

/-- The real-valued library calls of one extraction, abstracted as explicit
parameters (see the file header): the Black-Scholes call/put pricers
`(strike, iv) to price` built from `scipy.stats.norm.cdf`, the Hagan SABR
formula and the cubic-spline evaluator behind `get_volatility`, the
`savgol_filter` smoother, the two `scipy.optimize.minimize` outcomes of a
SABR calibration, and the discount factor `np.exp(r * T)`. -/
structure ExtParams where
  callPricer : ℚ → ℚ → ℚ
  putPricer : ℚ → ℚ → ℚ
  getVolSabr : SabrFit → ℚ → ℚ
  getVolSpline : List (ℚ × ℚ) → ℚ → ℚ
  smooth : List ℚ → List ℚ
  opt1 : OptResult
  opt2 : OptResult
  expRT : ℚ

/-- Embedding of `get_volatility` on a calibrated model (the
`NotCalibratedError` branch is unreachable here: a `VolModel` value only
exists after a successful `calibrate`). -/
def getVolatility (P : ExtParams) (model : VolModel) (strike : ℚ) : ℚ :=
  match model with
  | .sabr fit => P.getVolSabr fit strike
  | .spline pts => P.getVolSpline pts strike

/-- The strike-band and positive-price filter at the top of
`calculate_from_options`:
`(strike >= spot*MIN_STRIKE_PCT) & (strike <= spot*MAX_STRIKE_PCT) & (price > 0)`. -/
def filteredQuotes (cfg : Config) (qs : List OptionQuote) (spot : ℚ) : List OptionQuote :=
  qs.filter (fun q => decide (spot * cfg.minStrikePct ≤ q.strike ∧
    q.strike ≤ spot * cfg.maxStrikePct ∧ 0 < q.price))

/-- The dense strike grid of step 2:
`np.linspace(min_strike, max_strike, PDF_GRID_POINTS)`. -/
def strikeGrid (cfg : Config) (spot : ℚ) : List ℚ :=
  linspace (spot * cfg.minStrikePct) (spot * cfg.maxStrikePct) cfg.pdfGridPoints

/-- The Savitzky-Golay window choice of `_breeden_litzenberger`:
`min(51, len(pdf) if len(pdf) % 2 == 1 else len(pdf) - 1)` (computed in ℤ so
that `len(pdf) - 1` is `-1` on the empty array, as in Python). -/
def savgolWindow (n : ℕ) : ℤ :=
  min 51 (if n % 2 = 1 then (n : ℤ) else (n : ℤ) - 1)

/-- The raw Breeden-Litzenberger density before clipping:
`np.exp(r*T) * np.gradient(np.gradient(call_prices, strikes), strikes)`.
(The unused local `dK = np.gradient(strikes)` of the source is dropped.) -/
def rawDensity (strikes prices : List ℚ) (expRT : ℚ) : List ℚ :=
  (gradient (gradient prices strikes) strikes).map (fun v => expRT * v)

/-- Embedding of `BreedenlitzenbergPDF._breeden_litzenberger`: raw density,
clip to non-negative, then - when the window is at least 5 - smooth and
re-clip.  The `except: pass` around `savgol_filter` keeps the pre-smoothing
array on failure; since `smooth` here ranges over all functions, that path
is the instance `smooth = id`. -/
def breeden_litzenberger (smooth : List ℚ → List ℚ) (strikes prices : List ℚ)
    (expRT : ℚ) : List ℚ :=
  let pdf1 := (rawDensity strikes prices expRT).map (fun v => max v 0)
  if 5 ≤ savgolWindow pdf1.length then (smooth pdf1).map (fun v => max v 0)
  else pdf1

/-- Embedding of `BreedenlitzenbergPDF._normalize_pdf`: divide by the
trapezoidal integral, raising `ValueError` when that integral is not
positive. -/
def normalize_pdf (strikes pdf : List ℚ) : Except String (List ℚ) :=
  let integral := trapezoid pdf strikes
  if integral ≤ 0 then
    .error ("PDF integral is zero or negative - invalid PDF")
  else
    .ok (pdf.map (fun v => v / integral))

/-- Embedding of `BreedenlitzenbergPDF._calculate_cdf`: cumulative
trapezoidal integral with `initial=0`, rescaled so the last entry is 1, the
division guarded by `if cdf[-1] > 0`. -/
def calculate_cdf (strikes pdf : List ℚ) : List ℚ :=
  let cdf := cumtrapz pdf strikes
  if 0 < cdf.getLastD 0 then cdf.map (fun v => v / cdf.getLastD 0) else cdf

/-- Steps 3-4 of `calculate_from_options` after calibration: query the
calibrated surface for the implied vol at each grid point, then price each
grid point with the Black-Scholes call or put pricer per `option_type`. -/
def gridPrices (cfg : Config) (P : ExtParams) (model : VolModel) (spot : ℚ)
    (optionType : String) : List ℚ :=
  let grid := strikeGrid cfg spot
  let ivs := grid.map (getVolatility P model)
  if optionType = "call" then List.zipWith P.callPricer grid ivs
  else List.zipWith P.putPricer grid ivs

/-- Embedding of `BreedenlitzenbergPDF.calculate_from_options`.  On success
the source returns `(strike_grid, pdf)` and stores `self.strikes`,
`self.pdf`, `self.cdf`; the embedding returns all three as a triple
`(strikes, pdf, cdf)`. -/
def calculate_from_options (cfg : Config) (P : ExtParams) (qs : List OptionQuote)
    (spot r T : ℚ) (optionType method : String) :
    Except String (List ℚ × List ℚ × List ℚ) :=
  let df := filteredQuotes cfg qs spot
  if df.length < cfg.minStrikesForPDF then
    .error ("Need at least " ++ toString cfg.minStrikesForPDF ++ " strikes, got "
      ++ toString df.length)
  else
    let sorted := List.insertionSort quoteLE df
    match calibrate_volatility_surface P.opt1 P.opt2 SABR_BETA
        (sorted.map OptionQuote.strike) (sorted.map OptionQuote.iv)
        (spot * P.expRT) T method with
    | .error e => .error e
    | .ok (model, _stats) =>
      let grid := strikeGrid cfg spot
      match normalize_pdf grid
          (breeden_litzenberger P.smooth grid (gridPrices cfg P model spot optionType) P.expRT) with
      | .error e => .error e
      | .ok pdf => .ok (grid, pdf, calculate_cdf grid pdf)

/-- Strike grid of a successful extraction result (`[]` on the error case,
never used there). -/
def gridOf : Except String (List ℚ × List ℚ × List ℚ) → List ℚ
  | .ok t => t.1
  | .error _ => []

/-- Density of a successful extraction result. -/
def pdfOf : Except String (List ℚ × List ℚ × List ℚ) → List ℚ
  | .ok t => t.2.1
  | .error _ => []

/-- CDF of a successful extraction result. -/
def cdfOf : Except String (List ℚ × List ℚ × List ℚ) → List ℚ
  | .ok t => t.2.2
  | .error _ => []

/-- The mutable state of a `BreedenlitzenbergPDF` instance that
`get_probability` reads: `self.pdf`, `self.strikes`, `self.cdf` (each `None`
until `calculate_from_options` stores it). -/
structure PDFState where
  pdf : Option (List ℚ)
  strikes : Option (List ℚ)
  cdf : Option (List ℚ)
deriving DecidableEq

/-- Embedding of `BreedenlitzenbergPDF.get_probability(strike_level,
condition)`, with the instance state threaded explicitly: the method raises
when the CDF has not been computed, interpolates the CDF linearly (with
extrapolation) at the level, returns it for `'below'`, its complement for
`'above'`, and raises on any other condition string; it assigns no instance
attribute, so the state is returned unchanged. -/
def get_probability (st : PDFState) (strikeLevel : ℚ) (condition : String) :
    Except String ℚ × PDFState :=
  match st.cdf, st.strikes with
  | some cdf, some strikes =>
    let probBelow := interpExtrap strikeLevel strikes cdf
    if condition = "below" then (.ok probBelow, st)
    else if condition = "above" then (.ok (1 - probBelow), st)
    else (.error ("condition must be below or above"), st)
  | _, _ => (.error ("PDF must be calculated first"), st)

end OIPV

namespace OIPV

/-! ### Statistics engine (`src/core/statistics.py`)

`PDFStatistics` stores `(strikes, pdf, spot, T)` and computes pure functions
of them; the moment methods take `mean`/`std` as arguments (the `None`
defaults recompute them, `std` as a real square root, which no verified
property needs). -/

/-- Embedding of `PDFStatistics.calculate_mean`:
`trapezoid(strikes * pdf, strikes)`. -/
def calculate_mean (strikes pdf : List ℚ) : ℚ :=
  trapezoid (List.zipWith (fun k f => k * f) strikes pdf) strikes

/-- Embedding of `PDFStatistics.calculate_variance`:
`trapezoid((strikes - mean)**2 * pdf, strikes)`. -/
def calculate_variance (strikes pdf : List ℚ) (mean : ℚ) : ℚ :=
  trapezoid (List.zipWith (fun k f => (k - mean) ^ 2 * f) strikes pdf) strikes

/-- Embedding of `PDFStatistics.calculate_skewness`: returns 0 when
`std == 0`, otherwise the third central moment divided by `std**3`. -/
def calculate_skewness (strikes pdf : List ℚ) (mean stdv : ℚ) : ℚ :=
  if stdv = 0 then 0
  else trapezoid (List.zipWith (fun k f => (k - mean) ^ 3 * f) strikes pdf) strikes / stdv ^ 3

/-- Embedding of `PDFStatistics.calculate_kurtosis`: returns 0 when
`std == 0`, otherwise the fourth central moment divided by `std**4`,
minus 3. -/
def calculate_kurtosis (strikes pdf : List ℚ) (mean stdv : ℚ) : ℚ :=
  if stdv = 0 then 0
  else trapezoid (List.zipWith (fun k f => (k - mean) ^ 4 * f) strikes pdf) strikes / stdv ^ 4 - 3

/-- Embedding of `PDFStatistics.calculate_percentile`: cumulative
trapezoidal CDF, divided by its last entry with no guard (`cdf = cdf /
cdf[-1]`), then `np.interp(percentile/100, cdf, strikes)`.  When the last
entry is exactly 0 the unguarded float division produces nan, embedded as
`none`. -/
def calculate_percentile (strikes pdf : List ℚ) (percentile : ℚ) : Option ℚ :=
  let cdf := cumtrapz pdf strikes
  if cdf.getLastD 0 = 0 then none
  else some (npInterp (percentile / 100) (cdf.map (fun v => v / cdf.getLastD 0)) strikes)

/-! ### Pattern matching (`src/core/patterns.py`) -/

/-- The common re-sampling grid of `_pdf_shape_similarity`:
`np.linspace(max(strikes1.min(), strikes2.min()), min(strikes1.max(),
strikes2.max()), 100)` - built with no overlap check. -/
def commonGrid (strikes1 strikes2 : List ℚ) : List ℚ :=
  linspace (max (listMin strikes1) (listMin strikes2))
    (min (listMax strikes1) (listMax strikes2)) 100

/-- Re-sampling of a density onto the common grid:
`np.interp(common_grid, strikes, pdf)`. -/
def resample (grid strikes pdf : List ℚ) : List ℚ :=
  grid.map (fun t => npInterp t strikes pdf)

/-- The renormalization step of `_pdf_shape_similarity`:
`pdf_interp / np.trapz(pdf_interp, common_grid)`. -/
def renorm (grid p : List ℚ) : List ℚ :=
  p.map (fun v => v / trapezoid p grid)

/-- Embedding of `scipy.spatial.distance.cosine`:
`1 - dot(u, v) / (norm(u) * norm(v))`, a real number because the norms are
square roots. -/
noncomputable def cosineDistance (u v : List ℚ) : ℝ :=
  1 - (dotList u v : ℝ) / (Real.sqrt ((dotList u u : ℚ) : ℝ) * Real.sqrt ((dotList v v : ℚ) : ℝ))

/-- Embedding of `PDFPatternMatcher._pdf_shape_similarity`: resample both
densities onto the 100-point common grid, renormalize each by its
trapezoidal integral, take `1 - cosine(a, b)` and clamp to `[0, 1]` via
`max(0.0, min(1.0, similarity))`.  (The `try/except` around `cosine` only
fires on malformed arrays, which cannot arise here: both vectors come from
the same `map` over the same grid.) -/
noncomputable def pdf_shape_similarity (pdf1 strikes1 pdf2 strikes2 : List ℚ) : ℝ :=
  max 0 (min 1 (1 - cosineDistance
    (renorm (commonGrid strikes1 strikes2) (resample (commonGrid strikes1 strikes2) strikes1 pdf1))
    (renorm (commonGrid strikes1 strikes2) (resample (commonGrid strikes1 strikes2) strikes2 pdf2))))

end OIPV

namespace OIPV

/-- The non-negativity predicate of P2: no entry of the array is negative. -/
def allNonneg (l : List ℚ) : Prop := ∀ v ∈ l, 0 ≤ v

/-! ### Concrete instantiation data

A small option chain and parameter set on which the pipeline demonstrably
runs; used to instantiate the theorems below at concrete inputs. -/

/-- Concrete extraction parameters: a quadratic stand-in pricer, a flat vol
surface, identity smoothing, successful optimizer runs, unit discount. -/
def exParams : ExtParams :=
  { callPricer := fun k _ => k * k
    putPricer := fun _ _ => 0
    getVolSabr := fun _ _ => 1/5
    getVolSpline := fun _ _ => 1/5
    smooth := id
    opt1 := ⟨1/5, -3/10, 3/10, true⟩
    opt2 := ⟨1/5, -3/10, 3/10, true⟩
    expRT := 1 }

/-- The same parameters with a concave (negated quadratic) call-price curve,
whose raw second derivative is everywhere negative. -/
def exParamsNeg : ExtParams :=
  { exParams with callPricer := fun k _ => -(k * k) }

/-- A small configuration: 2 required strikes, 6 grid points, default band. -/
def exCfg : Config := ⟨2, 6, 4/5, 6/5⟩

/-- A small configuration with an odd number of grid points. -/
def exCfgOdd : Config := ⟨2, 5, 4/5, 6/5⟩

/-- Three in-band quotes with positive prices and flat implied vol. -/
def exQuotes : List OptionQuote := [⟨4/5, 1, 1/5⟩, ⟨1, 1, 1/5⟩, ⟨6/5, 1, 1/5⟩]

-- Decidable equality of embedded Python results, for concrete evaluation.
deriving instance DecidableEq for Except

/-! ### Helper lemmas about the numeric primitives -/

theorem trapezoid_nil_left (x : List ℚ) : trapezoid [] x = 0 := by
  cases x <;> simp [trapezoid]

theorem trapezoid_single (y : ℚ) (x : List ℚ) : trapezoid [y] x = 0 := by
  cases x with
  | nil => simp [trapezoid]
  | cons a xs => cases xs <;> simp [trapezoid]

theorem trapezoid_map_div (c : ℚ) :
    ∀ y x : List ℚ, trapezoid (y.map (fun v => v / c)) x = trapezoid y x / c := by
  intro y
  induction y with
  | nil => intro x; simp [trapezoid_nil_left]
  | cons y1 ys ih =>
    intro x
    cases ys with
    | nil => simp [trapezoid_single]
    | cons y2 ys' =>
      cases x with
      | nil => simp [trapezoid]
      | cons x1 xs =>
        cases xs with
        | nil => simp [trapezoid]
        | cons x2 xs' =>
          have := ih (x2 :: xs')
          simp only [List.map, trapezoid] at this ⊢
          rw [this]
          simp only [division_def]
          ring

theorem trapezoid_nonneg (y x : List ℚ) (hy : ∀ v ∈ y, 0 ≤ v)
    (hx : List.Chain' (· ≤ ·) x) : 0 ≤ trapezoid y x := by
  induction y generalizing x with
  | nil => simp [trapezoid_nil_left]
  | cons y1 ys ih =>
    cases ys with
    | nil => simp [trapezoid_single]
    | cons y2 ys' =>
      cases x with
      | nil => simp [trapezoid]
      | cons x1 xs =>
        cases xs with
        | nil => simp [trapezoid]
        | cons x2 xs' =>
          simp only [trapezoid]
          have h1 : 0 ≤ y1 := hy y1 (by simp)
          have h2 : 0 ≤ y2 := hy y2 (by simp)
          have hx12 : x1 ≤ x2 := (List.chain'_cons.mp hx).1
          have hrest : List.Chain' (· ≤ ·) (x2 :: xs') := (List.chain'_cons.mp hx).2
          have htail : 0 ≤ trapezoid (y2 :: ys') (x2 :: xs') :=
            ih (x2 :: xs') (fun v hv => hy v (List.mem_cons_of_mem _ hv)) hrest
          have hseg : 0 ≤ (y1 + y2) / 2 * (x2 - x1) := by
            apply mul_nonneg (by positivity) (by linarith)
          linarith

theorem trapezoid_nonpos (y x : List ℚ) (hy : ∀ v ∈ y, 0 ≤ v)
    (hx : List.Chain' (fun p q => q ≤ p) x) : trapezoid y x ≤ 0 := by
  induction y generalizing x with
  | nil => simp [trapezoid_nil_left]
  | cons y1 ys ih =>
    cases ys with
    | nil => simp [trapezoid_single]
    | cons y2 ys' =>
      cases x with
      | nil => simp [trapezoid]
      | cons x1 xs =>
        cases xs with
        | nil => simp [trapezoid]
        | cons x2 xs' =>
          simp only [trapezoid]
          have h1 : 0 ≤ y1 := hy y1 (by simp)
          have h2 : 0 ≤ y2 := hy y2 (by simp)
          have hx12 : x2 ≤ x1 := (List.chain'_cons.mp hx).1
          have hrest : List.Chain' (fun p q => q ≤ p) (x2 :: xs') := (List.chain'_cons.mp hx).2
          have htail : trapezoid (y2 :: ys') (x2 :: xs') ≤ 0 :=
            ih (x2 :: xs') (fun v hv => hy v (List.mem_cons_of_mem _ hv)) hrest
          have hseg : (y1 + y2) / 2 * (x2 - x1) ≤ 0 := by
            apply mul_nonpos_of_nonneg_of_nonpos (by positivity) (by linarith)
          linarith

theorem trapezoid_replicate_zero (x : List ℚ) : ∀ n, trapezoid (List.replicate n 0) x = 0 := by
  intro n
  induction n generalizing x with
  | zero => simp [trapezoid_nil_left]
  | succ m ih =>
    cases m with
    | zero => simpa using trapezoid_single 0 x
    | succ k =>
      cases x with
      | nil => simp [trapezoid]
      | cons x1 xs =>
        cases xs with
        | nil => simp [trapezoid]
        | cons x2 xs' =>
          simp only [List.replicate, trapezoid] at ih ⊢
          rw [ih (x2 :: xs')]
          ring

end OIPV

namespace OIPV

theorem cumtrapzGo_getLastD (ys : List ℚ) :
    ∀ (xs : List ℚ) (acc y0 x0 : ℚ),
      (cumtrapzGo acc y0 x0 ys xs).getLastD acc = acc + trapezoid (y0 :: ys) (x0 :: xs) := by
  induction ys with
  | nil =>
    intro xs acc y0 x0
    cases xs <;> simp [cumtrapzGo, trapezoid, trapezoid_single]
  | cons y1 ys' ih =>
    intro xs acc y0 x0
    cases xs with
    | nil => simp [cumtrapzGo, trapezoid]
    | cons x1 xs' =>
      simp only [cumtrapzGo, List.getLastD_cons, trapezoid]
      rw [ih xs' (acc + (y0 + y1) / 2 * (x1 - x0)) y1 x1]
      ring

theorem cumtrapz_getLastD (y x : List ℚ) :
    (cumtrapz y x).getLastD 0 = trapezoid y x := by
  cases y with
  | nil => simp [cumtrapz, trapezoid_nil_left]
  | cons y0 ys =>
    cases x with
    | nil => simp [cumtrapz, trapezoid]
    | cons x0 xs =>
      simp only [cumtrapz, List.getLastD_cons]
      simpa using cumtrapzGo_getLastD ys xs 0 y0 x0

theorem cumtrapzGo_chain (ys : List ℚ) :
    ∀ (xs : List ℚ) (acc y0 x0 : ℚ), 0 ≤ y0 → (∀ v ∈ ys, 0 ≤ v) →
      List.Chain' (· ≤ ·) (x0 :: xs) →
      List.Chain' (· ≤ ·) (acc :: cumtrapzGo acc y0 x0 ys xs) := by
  induction ys with
  | nil =>
    intro xs acc y0 x0 _ _ _
    cases xs <;> simp [cumtrapzGo]
  | cons y1 ys' ih =>
    intro xs acc y0 x0 hy0 hys hx
    cases xs with
    | nil => simp [cumtrapzGo]
    | cons x1 xs' =>
      simp only [cumtrapzGo]
      have hy1 : 0 ≤ y1 := hys y1 (by simp)
      have hx01 : x0 ≤ x1 := (List.chain'_cons.mp hx).1
      have hxrest : List.Chain' (· ≤ ·) (x1 :: xs') := (List.chain'_cons.mp hx).2
      refine List.chain'_cons.mpr ⟨?_, ?_⟩
      · have : 0 ≤ (y0 + y1) / 2 * (x1 - x0) := by
          apply mul_nonneg (by positivity) (by linarith)
        linarith
      · exact ih xs' (acc + (y0 + y1) / 2 * (x1 - x0)) y1 x1 hy1
          (fun v hv => hys v (List.mem_cons_of_mem _ hv)) hxrest

theorem cumtrapz_chain (y x : List ℚ) (hy : ∀ v ∈ y, 0 ≤ v)
    (hx : List.Chain' (· ≤ ·) x) : List.Chain' (· ≤ ·) (cumtrapz y x) := by
  cases y with
  | nil => simp [cumtrapz]
  | cons y0 ys =>
    cases x with
    | nil => simp [cumtrapz]
    | cons x0 xs =>
      simp only [cumtrapz]
      exact cumtrapzGo_chain ys xs 0 y0 x0 (hy y0 (by simp))
        (fun v hv => hy v (List.mem_cons_of_mem _ hv)) hx

theorem getLastD_map (f : ℚ → ℚ) (l : List ℚ) :
    ∀ d, (l.map f).getLastD (f d) = f (l.getLastD d) := by
  induction l with
  | nil => intro d; simp
  | cons a l' ih => intro d; simp only [List.map, List.getLastD_cons]; exact ih a

theorem headD_map (f : ℚ → ℚ) (l : List ℚ) (d : ℚ) :
    (l.map f).headD (f d) = f (l.headD d) := by
  cases l <;> simp

end OIPV

namespace OIPV

theorem linspace_length (a b : ℚ) (n : ℕ) : (linspace a b n).length = n := by
  unfold linspace
  split
  · simp [*]
  · simp

theorem linspace_chain_le (a b : ℚ) (n : ℕ) (hab : a ≤ b) :
    List.Chain' (· ≤ ·) (linspace a b n) := by
  unfold linspace
  split
  · simp
  · rw [List.chain'_map]
    match n with
    | 0 => simp
    | 1 => exact absurd rfl (by assumption)
    | m + 2 =>
      rw [List.chain'_range_succ]
      intro i _
      have hd : (0:ℚ) < ((m + 2 : ℕ) : ℚ) - 1 := by push_cast; linarith
      apply add_le_add_left
      rw [div_le_div_iff_of_pos_right hd]
      have hle : ((i : ℕ) : ℚ) ≤ ((i + 1 : ℕ) : ℚ) := by push_cast; linarith
      exact mul_le_mul_of_nonneg_left hle (by linarith)

theorem linspace_chain_ge (a b : ℚ) (n : ℕ) (hab : b ≤ a) :
    List.Chain' (fun p q => q ≤ p) (linspace a b n) := by
  unfold linspace
  split
  · simp
  · rw [List.chain'_map]
    match n with
    | 0 => simp
    | 1 => exact absurd rfl (by assumption)
    | m + 2 =>
      rw [List.chain'_range_succ]
      intro i _
      have hd : (0:ℚ) < ((m + 2 : ℕ) : ℚ) - 1 := by push_cast; linarith
      apply add_le_add_left
      rw [div_le_div_iff_of_pos_right hd]
      have hle : ((i : ℕ) : ℚ) ≤ ((i + 1 : ℕ) : ℚ) := by push_cast; linarith
      exact mul_le_mul_of_nonpos_left hle (by linarith)

end OIPV

namespace OIPV

theorem linspace_headD (a b : ℚ) (n : ℕ) (hn : 1 ≤ n) :
    (linspace a b n).headD 0 = a := by
  unfold linspace
  split
  · simp
  · match n, hn with
    | m + 1, _ =>
      rw [List.range_succ_eq_map]
      simp

theorem linspace_getLastD (a b : ℚ) (n : ℕ) (hn : 2 ≤ n) :
    (linspace a b n).getLastD 0 = b := by
  unfold linspace
  split
  · omega
  · match n, hn with
    | m + 2, _ =>
      rw [List.range_succ, List.map_append]
      simp only [List.map_cons, List.map_nil, List.getLastD_concat]
      have hc : ((m + 2 : ℕ) : ℚ) - 1 = ((m + 1 : ℕ) : ℚ) := by push_cast; ring
      rw [hc]
      have hne : ((m + 1 : ℕ) : ℚ) ≠ 0 := by positivity
      rw [mul_div_assoc, div_self hne, mul_one]
      ring

theorem linspace_mem_of_ge (a b t : ℚ) (n : ℕ) (hba : b ≤ a)
    (ht : t ∈ linspace a b n) : b ≤ t ∧ t ≤ a := by
  unfold linspace at ht
  split at ht
  · simp at ht
    exact ⟨ht ▸ hba, ht.le⟩
  · rw [List.mem_map] at ht
    obtain ⟨i, hi, rfl⟩ := ht
    rw [List.mem_range] at hi
    match n, hi with
    | m + 2, hi =>
      have hd : (0:ℚ) < ((m + 2 : ℕ) : ℚ) - 1 := by push_cast; linarith
      have hi2 : i ≤ m + 1 := by omega
      have hi' : (i : ℚ) ≤ ((m + 2 : ℕ) : ℚ) - 1 := by
        have hc := (Nat.cast_le (α := ℚ)).mpr hi2
        push_cast at hc ⊢
        linarith
      constructor
      · have hfrac : (i : ℚ) / (((m + 2 : ℕ) : ℚ) - 1) ≤ 1 := by
          rw [div_le_one hd]; exact hi'
        have hstep : (b - a) * 1 ≤ (b - a) * ((i : ℚ) / (((m + 2 : ℕ) : ℚ) - 1)) :=
          mul_le_mul_of_nonpos_left hfrac (by linarith)
        have : (b - a) * ((i : ℚ) / (((m + 2 : ℕ) : ℚ) - 1))
            = (b - a) * (i : ℚ) / (((m + 2 : ℕ) : ℚ) - 1) := by ring
        linarith [this ▸ hstep]
      · have hfrac : 0 ≤ (i : ℚ) / (((m + 2 : ℕ) : ℚ) - 1) := by positivity
        have hstep : (b - a) * ((i : ℚ) / (((m + 2 : ℕ) : ℚ) - 1)) ≤ 0 :=
          mul_nonpos_of_nonpos_of_nonneg (by linarith) hfrac
        have : (b - a) * ((i : ℚ) / (((m + 2 : ℕ) : ℚ) - 1))
            = (b - a) * (i : ℚ) / (((m + 2 : ℕ) : ℚ) - 1) := by ring
        linarith [this ▸ hstep]

end OIPV

namespace OIPV

theorem normalize_pdf_ok {s y z : List ℚ} (h : normalize_pdf s y = .ok z) :
    0 < trapezoid y s ∧ z = y.map (fun v => v / trapezoid y s) := by
  simp only [normalize_pdf] at h
  split at h
  · exact absurd h (by simp)
  · next hgt =>
    refine ⟨not_le.mp hgt, ?_⟩
    injection h with h'
    exact h'.symm

theorem normalize_pdf_error {s y : List ℚ} (h : trapezoid y s ≤ 0) :
    normalize_pdf s y = .error ("PDF integral is zero or negative - invalid PDF") := by
  simp only [normalize_pdf, if_pos h]

theorem bl_nonneg (smooth : List ℚ → List ℚ) (strikes prices : List ℚ) (expRT : ℚ) :
    ∀ v ∈ breeden_litzenberger smooth strikes prices expRT, 0 ≤ v := by
  intro v hv
  simp only [breeden_litzenberger] at hv
  split at hv
  · obtain ⟨w, _, rfl⟩ := List.mem_map.mp hv
    exact le_max_right w 0
  · obtain ⟨w, _, rfl⟩ := List.mem_map.mp hv
    exact le_max_right w 0

theorem calc_ok_parts {cfg : Config} {P : ExtParams} {qs : List OptionQuote}
    {spot r T : ℚ} {ot m : String} {out : List ℚ × List ℚ × List ℚ}
    (h : calculate_from_options cfg P qs spot r T ot m = .ok out) :
    ∃ prices, out.1 = strikeGrid cfg spot ∧
      normalize_pdf (strikeGrid cfg spot)
        (breeden_litzenberger P.smooth (strikeGrid cfg spot) prices P.expRT) = .ok out.2.1 ∧
      out.2.2 = calculate_cdf (strikeGrid cfg spot) out.2.1 := by
  simp only [calculate_from_options] at h
  split at h
  · exact absurd h (by simp)
  · split at h
    · exact absurd h (by simp)
    · next model stats heq =>
      split at h
      · exact absurd h (by simp)
      · next pdf hnorm =>
        injection h with h'
        subst h'
        exact ⟨_, rfl, hnorm, rfl⟩

end OIPV

namespace OIPV

/-- Every non-error `Except` value is an `ok`. -/
theorem isOk_exists {α : Type _} {e : Except String α} (h : e.isOk = true) :
    ∃ v, e = .ok v := by
  cases e with
  | error _ => simp [Except.isOk, Except.toBool] at h
  | ok v => exact ⟨v, rfl⟩

/-- The density of any successful extraction: it integrates (trapezoidally)
to exactly 1 over the returned grid and is entrywise non-negative. -/
theorem calc_ok_pdf_facts {cfg : Config} {P : ExtParams} {qs : List OptionQuote}
    {spot r T : ℚ} {ot m : String} {out : List ℚ × List ℚ × List ℚ}
    (h : calculate_from_options cfg P qs spot r T ot m = .ok out) :
    trapezoid out.2.1 (strikeGrid cfg spot) = 1 ∧ ∀ v ∈ out.2.1, 0 ≤ v := by
  obtain ⟨prices, hg, hnorm, hcdf⟩ := calc_ok_parts h
  obtain ⟨hpos, hz⟩ := normalize_pdf_ok hnorm
  constructor
  · rw [hz, trapezoid_map_div, div_self (ne_of_gt hpos)]
  · rw [hz]
    intro v hv
    obtain ⟨w, hw, rfl⟩ := List.mem_map.mp hv
    exact div_nonneg (bl_nonneg _ _ _ _ w hw) hpos.le

/-- The strike grid of any successful extraction is non-decreasing: were the
band inverted, every trapezoidal increment of the non-negative clipped
density would be non-positive and normalization would have failed. -/
theorem calc_ok_grid_chain {cfg : Config} {P : ExtParams} {qs : List OptionQuote}
    {spot r T : ℚ} {ot m : String} {out : List ℚ × List ℚ × List ℚ}
    (h : calculate_from_options cfg P qs spot r T ot m = .ok out) :
    List.Chain' (· ≤ ·) (strikeGrid cfg spot) := by
  obtain ⟨prices, hg, hnorm, hcdf⟩ := calc_ok_parts h
  obtain ⟨hpos, hz⟩ := normalize_pdf_ok hnorm
  by_cases hab : spot * cfg.minStrikePct ≤ spot * cfg.maxStrikePct
  · exact linspace_chain_le _ _ _ hab
  · exfalso
    have hge : List.Chain' (fun p q => q ≤ p) (strikeGrid cfg spot) :=
      linspace_chain_ge _ _ _ (le_of_not_le hab)
    have := trapezoid_nonpos _ _ (bl_nonneg P.smooth (strikeGrid cfg spot) prices P.expRT) hge
    linarith

/-- C1.  For every successful call to
`BreedenlitzenbergPDF.calculate_from_options`, the trapezoidal integral of
the returned density over the returned strike grid is within 1% of 1.0 (it
equals 1 exactly in exact arithmetic: the last step divides by that very
integral). -/
theorem C1_mass_conservation (cfg : Config) (P : ExtParams) (qs : List OptionQuote)
    (spot r T : ℚ) (ot m : String)
    (h : (calculate_from_options cfg P qs spot r T ot m).isOk = true) :
    |trapezoid (pdfOf (calculate_from_options cfg P qs spot r T ot m))
      (gridOf (calculate_from_options cfg P qs spot r T ot m)) - 1| ≤ 1/100 := by
  obtain ⟨out, heq⟩ := isOk_exists h
  obtain ⟨prices, hg, hnorm, hcdf⟩ := calc_ok_parts heq
  have hfacts := calc_ok_pdf_facts heq
  rw [heq]
  show |trapezoid out.2.1 out.1 - 1| ≤ 1/100
  rw [hg, hfacts.1]
  norm_num

/-- C2.  For every input on which `calculate_from_options` succeeds
(whatever the implied-volatility smile: the vol surface, pricer and smoother
are universally quantified), every entry of the returned density array is
non-negative - clipping follows both the raw second derivative and the
Savitzky-Golay pass, and normalization divides by a positive integral. -/
theorem C2_density_nonneg (cfg : Config) (P : ExtParams) (qs : List OptionQuote)
    (spot r T : ℚ) (ot m : String)
    (h : (calculate_from_options cfg P qs spot r T ot m).isOk = true) :
    allNonneg (pdfOf (calculate_from_options cfg P qs spot r T ot m)) := by
  obtain ⟨out, heq⟩ := isOk_exists h
  rw [heq]
  exact (calc_ok_pdf_facts heq).2

/-- C3.  After a successful `calculate_from_options`, the stored CDF array
is non-decreasing, starts at 0, and ends at exactly 1; the renormalization
inside `_calculate_cdf` is guarded by `if cdf[-1] > 0` (and on the success
path that guard is passed, since the unnormalized CDF ends at the integral
of the normalized density, which is exactly 1). -/
theorem C3_cdf_monotone (cfg : Config) (P : ExtParams) (qs : List OptionQuote)
    (spot r T : ℚ) (ot m : String)
    (h : (calculate_from_options cfg P qs spot r T ot m).isOk = true) :
    List.Chain' (· ≤ ·) (cdfOf (calculate_from_options cfg P qs spot r T ot m)) ∧
    (cdfOf (calculate_from_options cfg P qs spot r T ot m)).headD 0 = 0 ∧
    (cdfOf (calculate_from_options cfg P qs spot r T ot m)).getLastD 0 = 1 := by
  obtain ⟨out, heq⟩ := isOk_exists h
  obtain ⟨prices, hg, hnorm, hcdf⟩ := calc_ok_parts heq
  obtain ⟨hint, hnn⟩ := calc_ok_pdf_facts heq
  have hgrid := calc_ok_grid_chain heq
  rw [heq]
  show List.Chain' (· ≤ ·) out.2.2 ∧ out.2.2.headD 0 = 0 ∧ out.2.2.getLastD 0 = 1
  have hlast : (cumtrapz out.2.1 (strikeGrid cfg spot)).getLastD 0 = 1 := by
    rw [cumtrapz_getLastD, hint]
  have hcdf_eq : out.2.2 = cumtrapz out.2.1 (strikeGrid cfg spot) := by
    rw [hcdf]
    simp only [calculate_cdf, hlast]
    rw [if_pos (by norm_num : (0:ℚ) < 1)]
    have hdiv1 : (fun v : ℚ => v / 1) = id := funext fun v => div_one v
    rw [hdiv1, List.map_id]
  refine ⟨?_, ?_, ?_⟩
  · rw [hcdf_eq]
    exact cumtrapz_chain _ _ hnn hgrid
  · rw [hcdf_eq]
    cases out.2.1 with
    | nil => simp [cumtrapz]
    | cons a l =>
      cases strikeGrid cfg spot with
      | nil => simp [cumtrapz]
      | cons b l' => simp [cumtrapz]
  · rw [hcdf_eq, hlast]

end OIPV

namespace OIPV

/-- C5.  `calculate_from_options` keeps exactly the quotes with strike in
`[spot*MIN_STRIKE_PCT, spot*MAX_STRIKE_PCT]` and positive price; when fewer
than `MIN_STRIKES_FOR_PDF` rows survive it raises an insufficient-data error
whose message names the count found; the configured defaults are
0.80 / 1.20 / 10. -/
theorem C5_insufficient_data (cfg : Config) (P : ExtParams) (qs : List OptionQuote)
    (spot r T : ℚ) (ot m : String) :
    (∀ q, q ∈ filteredQuotes cfg qs spot ↔
      q ∈ qs ∧ spot * cfg.minStrikePct ≤ q.strike ∧
        q.strike ≤ spot * cfg.maxStrikePct ∧ 0 < q.price) ∧
    ((filteredQuotes cfg qs spot).length < cfg.minStrikesForPDF →
      calculate_from_options cfg P qs spot r T ot m =
        .error ("Need at least " ++ toString cfg.minStrikesForPDF ++ " strikes, got "
          ++ toString (filteredQuotes cfg qs spot).length)) ∧
    defaultConfig.minStrikesForPDF = 10 ∧ defaultConfig.minStrikePct = 4/5 ∧
    defaultConfig.maxStrikePct = 6/5 := by
  refine ⟨?_, ?_, rfl, rfl, rfl⟩
  · intro q
    simp only [filteredQuotes, List.mem_filter, decide_eq_true_eq]
  · intro hlen
    simp only [calculate_from_options, if_pos hlen]

/-- C6.  Normalization divides the clipped density by its trapezoidal
integral and fails with the degenerate-density error whenever that integral
is not positive; in particular, when the raw second derivative is everywhere
negative, clipping produces the all-zero array (a fixed point of the linear
Savitzky-Golay smoother), its integral is 0, and `calculate_from_options`
raises that error instead of returning a density. -/
theorem C6_degenerate_density (cfg : Config) (P : ExtParams) (qs : List OptionQuote)
    (spot r T : ℚ) (ot m : String) (model : VolModel) (stats : Bool)
    (hlen : ¬ (filteredQuotes cfg qs spot).length < cfg.minStrikesForPDF)
    (hcal : calibrate_volatility_surface P.opt1 P.opt2 SABR_BETA
      ((List.insertionSort quoteLE (filteredQuotes cfg qs spot)).map OptionQuote.strike)
      ((List.insertionSort quoteLE (filteredQuotes cfg qs spot)).map OptionQuote.iv)
      (spot * P.expRT) T m = .ok (model, stats))
    (hsmooth : P.smooth (List.replicate
        (rawDensity (strikeGrid cfg spot) (gridPrices cfg P model spot ot) P.expRT).length 0)
      = List.replicate
        (rawDensity (strikeGrid cfg spot) (gridPrices cfg P model spot ot) P.expRT).length 0)
    (hneg : ∀ v ∈ rawDensity (strikeGrid cfg spot) (gridPrices cfg P model spot ot) P.expRT,
      v < 0) :
    (∀ strikes y : List ℚ, trapezoid y strikes ≤ 0 →
      normalize_pdf strikes y = .error ("PDF integral is zero or negative - invalid PDF")) ∧
    calculate_from_options cfg P qs spot r T ot m =
      .error ("PDF integral is zero or negative - invalid PDF") := by
  refine ⟨fun strikes y h => normalize_pdf_error h, ?_⟩
  have hclip : (rawDensity (strikeGrid cfg spot) (gridPrices cfg P model spot ot)
      P.expRT).map (fun v => max v 0)
      = List.replicate
        (rawDensity (strikeGrid cfg spot) (gridPrices cfg P model spot ot) P.expRT).length 0 := by
    have := List.eq_replicate_of_mem (a := (0:ℚ))
      (l := (rawDensity (strikeGrid cfg spot) (gridPrices cfg P model spot ot)
        P.expRT).map (fun v => max v 0)) ?_
    · rw [this, List.length_map]
    · intro b hb
      obtain ⟨w, hw, rfl⟩ := List.mem_map.mp hb
      exact max_eq_right (hneg w hw).le
  have hbl : breeden_litzenberger P.smooth (strikeGrid cfg spot)
      (gridPrices cfg P model spot ot) P.expRT
      = List.replicate
        (rawDensity (strikeGrid cfg spot) (gridPrices cfg P model spot ot) P.expRT).length 0 := by
    simp only [breeden_litzenberger, hclip]
    split
    · rw [hsmooth, List.map_replicate]
      simp
    · rfl
  simp only [calculate_from_options, if_neg hlen, hcal]
  rw [hbl, normalize_pdf_error (by rw [trapezoid_replicate_zero])]

end OIPV

namespace OIPV

/-- C4 (amended).  On `method='sabr'`, only an exception raised inside
`SABRModel.calibrate` (fewer than 3 valid points after filtering) is caught
by `calibrate_volatility_surface` and retried with the spline path; when at
least 3 valid points remain, no exception is raised even if neither
optimizer attempt reports success - the parameter vector of the attempted
optimizers (the second one whenever the first was unsuccessful) is stored
and a SABR model is returned together with its `success` flag, with no
spline fallback. -/
theorem C4_sabr_fallback (o1 o2 : OptResult) (beta : ℚ) (s i : List ℚ) (f tau : ℚ) :
    ((validPairs s i).length < 3 →
      calibrate_volatility_surface o1 o2 beta s i f tau "sabr" =
        (splineCalibrate s i).map (fun pts => (VolModel.spline pts, true))) ∧
    (¬ (validPairs s i).length < 3 →
      calibrate_volatility_surface o1 o2 beta s i f tau "sabr" =
        .ok (.sabr { alpha := (if o1.success then o1 else o2).x1,
                     rho := (if o1.success then o1 else o2).x2,
                     nu := (if o1.success then o1 else o2).x3,
                     beta := beta, forward := f, tau := tau,
                     success := (if o1.success then o1 else o2).success },
             (if o1.success then o1 else o2).success)) := by
  constructor
  · intro hlt
    simp only [calibrate_volatility_surface, sabrCalibrate, if_pos hlt, if_pos rfl,
      eq_self_iff_true, if_true]
  · intro hge
    simp only [calibrate_volatility_surface, sabrCalibrate, if_neg hge, if_pos rfl,
      eq_self_iff_true, if_true]

/-- C7 (amended).  In the statistics engine, skewness and excess kurtosis
return 0 when the standard deviation is 0 instead of dividing by it; the
percentile computation, however, divides its cumulative-trapezoid CDF by the
final CDF value with no guard, so a zero final value makes the division
invalid (nan in the source, `none` here). -/
theorem C7_division_guards :
    (∀ strikes pdf : List ℚ, ∀ mean : ℚ, calculate_skewness strikes pdf mean 0 = 0) ∧
    (∀ strikes pdf : List ℚ, ∀ mean : ℚ, calculate_kurtosis strikes pdf mean 0 = 0) ∧
    (∀ strikes pdf : List ℚ, ∀ p : ℚ, (cumtrapz pdf strikes).getLastD 0 = 0 →
      calculate_percentile strikes pdf p = none) := by
  refine ⟨fun s f m => if_pos rfl, fun s f m => if_pos rfl, fun s f p h => ?_⟩
  simp only [calculate_percentile, h, if_pos rfl, eq_self_iff_true, if_true]

/-- C8 (amended).  Both calibration paths silently drop pairs with
non-positive implied vol or non-positive strike (non-finiteness cannot occur
over exact rationals); the SABR path fails with the calibration error
whenever fewer than 3 valid points remain, but the spline path has no such
check: it succeeds with as few as 2 strictly increasing valid knots, and
fails - with the distinct spline-constructor error - only below 2 knots (or
on duplicate knots). -/
theorem C8_calibration_filter (strikes ivs : List ℚ) :
    (∀ p, p ∈ validPairs strikes ivs ↔ p ∈ strikes.zip ivs ∧ 0 < p.2 ∧ 0 < p.1) ∧
    ((validPairs strikes ivs).length < 3 → ∀ o1 o2 : OptResult, ∀ beta f tau : ℚ,
      sabrCalibrate o1 o2 beta strikes ivs f tau =
        .error ("Need at least 3 valid strikes for calibration")) ∧
    (2 ≤ (validPairs strikes ivs).length →
      strictlyIncreasing ((List.insertionSort pairLE (validPairs strikes ivs)).map Prod.fst)
        = true →
      (splineCalibrate strikes ivs).isOk = true) ∧
    ((validPairs strikes ivs).length < 2 →
      splineCalibrate strikes ivs = .error ("x must contain at least 2 elements")) := by
  refine ⟨?_, ?_, ?_, ?_⟩
  · intro p
    simp only [validPairs, List.mem_filter, decide_eq_true_eq]
  · intro hlt o1 o2 beta f tau
    simp only [sabrCalibrate, if_pos hlt]
  · intro hge hinc
    have hlen : (List.insertionSort pairLE (validPairs strikes ivs)).length
        = (validPairs strikes ivs).length := List.length_insertionSort _ _
    simp only [splineCalibrate]
    rw [if_neg (by omega), if_pos hinc]
    rfl
  · intro hlt
    have hlen : (List.insertionSort pairLE (validPairs strikes ivs)).length
        = (validPairs strikes ivs).length := List.length_insertionSort _ _
    simp only [splineCalibrate]
    rw [if_pos (by omega)]

/-- C10.  On a fitted extractor (stored cdf and strikes present),
`get_probability` raises a ValueError for any condition other than `below`
and `above`; the `below` result is the linearly interpolated CDF at the
level, the `above` result is its complement, the two sum to exactly 1, and
the stored state is returned unchanged by every query. -/
theorem C10_get_probability (st : PDFState) (level : ℚ) (cdfL strikesL : List ℚ)
    (hc : st.cdf = some cdfL) (hs : st.strikes = some strikesL) :
    (∀ cond : String, cond ≠ "below" → cond ≠ "above" →
      get_probability st level cond = (.error ("condition must be below or above"), st)) ∧
    get_probability st level "below" = (.ok (interpExtrap level strikesL cdfL), st) ∧
    get_probability st level "above" = (.ok (1 - interpExtrap level strikesL cdfL), st) ∧
    (∀ p q : ℚ, (get_probability st level "below").1 = .ok p →
      (get_probability st level "above").1 = .ok q → p + q = 1) := by
  refine ⟨?_, ?_, ?_, ?_⟩
  · intro cond hb ha
    simp only [get_probability, hc, hs, if_neg hb, if_neg ha]
  · simp only [get_probability, hc, hs, if_pos rfl, eq_self_iff_true, if_true]
  · have hne : ("above" : String) ≠ "below" := by decide
    simp only [get_probability, hc, hs, if_neg hne, if_pos rfl, eq_self_iff_true, if_true]
  · intro p q hp hq
    simp only [get_probability, hc, hs, if_pos rfl, eq_self_iff_true, if_true] at hp
    have hne : ("above" : String) ≠ "below" := by decide
    simp only [get_probability, hc, hs, if_neg hne, if_pos rfl, eq_self_iff_true, if_true] at hq
    injection hp with hp'
    injection hq with hq'
    rw [← hp', ← hq']
    ring

end OIPV

namespace OIPV

theorem getLastD_cons_irrel (x : ℚ) (xs : List ℚ) (d e : ℚ) :
    (x :: xs).getLastD d = (x :: xs).getLastD e := by
  rw [List.getLastD_cons, List.getLastD_cons]

theorem chain'_le_getLastD {x : ℚ} {xs : List ℚ}
    (h : List.Chain' (· ≤ ·) (x :: xs)) : x ≤ (x :: xs).getLastD 0 := by
  induction xs generalizing x with
  | nil => simp
  | cons y ys ih =>
    have hxy : x ≤ y := (List.chain'_cons.mp h).1
    have htail := ih (List.chain'_cons.mp h).2
    rw [List.getLastD_cons, getLastD_cons_irrel y ys x 0]
    linarith

theorem chain'_lt_le_getLastD {x : ℚ} {xs : List ℚ}
    (h : List.Chain' (· < ·) (x :: xs)) : x ≤ (x :: xs).getLastD 0 :=
  chain'_le_getLastD (List.Chain'.imp (fun _ _ hab => le_of_lt hab) h)

theorem foldl_min_eq (xs : List ℚ) : ∀ x, (∀ y ∈ xs, x ≤ y) → xs.foldl min x = x := by
  induction xs with
  | nil => intro x _; rfl
  | cons y ys ih =>
    intro x h
    simp only [List.foldl_cons]
    rw [min_eq_left (h y (by simp))]
    exact ih x (fun z hz => h z (List.mem_cons_of_mem _ hz))

theorem listMin_sorted {x : ℚ} {xs : List ℚ}
    (h : List.Chain' (· ≤ ·) (x :: xs)) : listMin (x :: xs) = x := by
  have hpw : List.Pairwise (· ≤ ·) (x :: xs) := List.chain'_iff_pairwise.mp h
  exact foldl_min_eq xs x (List.pairwise_cons.mp hpw).1

theorem listMax_sorted {x : ℚ} {xs : List ℚ}
    (h : List.Chain' (· ≤ ·) (x :: xs)) : listMax (x :: xs) = (x :: xs).getLastD 0 := by
  induction xs generalizing x with
  | nil => simp [listMax]
  | cons y ys ih =>
    have hxy : x ≤ y := (List.chain'_cons.mp h).1
    have htail := ih (List.chain'_cons.mp h).2
    simp only [listMax, List.foldl_cons] at htail ⊢
    rw [max_eq_right hxy, htail]
    exact ((List.getLastD_cons _ _ _).trans (getLastD_cons_irrel y ys x 0)).symm

theorem interpPts_le (t : ℚ) (xp fp : List ℚ) (hne : xp ≠ [])
    (hlen : xp.length = fp.length) (hle : t ≤ xp.headD 0) :
    interpPts (xp.zip fp) t = fp.headD 0 := by
  cases xp with
  | nil => exact absurd rfl hne
  | cons x xs =>
    cases fp with
    | nil => simp at hlen
    | cons y ys =>
      simp only [List.zip_cons_cons, List.headD_cons]
      rcases hz : xs.zip ys with _ | ⟨q, rest⟩
      · simp [interpPts]
      · simp only [interpPts]
        rw [if_pos (by simpa using hle)]

theorem interpPts_ge (t : ℚ) : ∀ (xp fp : List ℚ), xp ≠ [] → xp.length = fp.length →
    List.Chain' (· < ·) xp → xp.getLastD 0 ≤ t →
    interpPts (xp.zip fp) t = fp.getLastD 0 := by
  intro xp
  induction xp with
  | nil => intro fp h; exact absurd rfl h
  | cons x1 xs ih =>
    intro fp _ hlen hchain hle
    cases xs with
    | nil =>
      cases fp with
      | nil => simp at hlen
      | cons y ys =>
        cases ys with
        | nil => simp [interpPts]
        | cons z zs => simp at hlen
    | cons x2 xs' =>
      cases fp with
      | nil => simp at hlen
      | cons y1 fp' =>
        cases fp' with
        | nil => simp at hlen
        | cons y2 fp'' =>
          have hx12 : x1 < x2 := (List.chain'_cons.mp hchain).1
          have hch2 : List.Chain' (· < ·) (x2 :: xs') := (List.chain'_cons.mp hchain).2
          have hx2last : x2 ≤ (x2 :: xs').getLastD 0 := chain'_lt_le_getLastD hch2
          have hlast_eq : (x1 :: x2 :: xs').getLastD 0 = (x2 :: xs').getLastD 0 := by
            rw [List.getLastD_cons, getLastD_cons_irrel x2 xs' x1 0]
          rw [hlast_eq] at hle
          have ht1 : ¬ t ≤ x1 := by linarith
          cases xs' with
          | nil =>
            cases fp'' with
            | cons _ _ => simp at hlen
            | nil =>
              simp only [List.zip_cons_cons, List.zip_nil_right] at *
              by_cases h2 : t ≤ x2
              · have ht2 : t = x2 := le_antisymm h2 (by simpa using hle)
                subst ht2
                simp only [interpPts, if_neg ht1, if_pos h2, List.getLastD_cons,
                  List.getLastD_nil]
                rw [mul_div_assoc, div_self (sub_ne_zero.mpr (ne_of_gt hx12)), mul_one]
                ring
              · simp only [interpPts, if_neg ht1, if_neg h2, List.getLastD_cons,
                  List.getLastD_nil]
          | cons x3 xs'' =>
            cases fp'' with
            | nil => simp at hlen
            | cons y3 fp''' =>
              have hx23 : x2 < x3 := (List.chain'_cons.mp hch2).1
              have hch3 : List.Chain' (· < ·) (x3 :: xs'') := (List.chain'_cons.mp hch2).2
              have hx3last : x3 ≤ (x3 :: xs'').getLastD 0 := chain'_lt_le_getLastD hch3
              have hlast2 : (x2 :: x3 :: xs'').getLastD 0 = (x3 :: xs'').getLastD 0 := by
                rw [List.getLastD_cons, getLastD_cons_irrel x3 xs'' x2 0]
              have ht2 : ¬ t ≤ x2 := by
                rw [hlast2] at hle
                linarith
              have hrec := ih (y2 :: y3 :: fp''') (by simp) (by simpa using hlen) hch2 hle
              simp only [List.zip_cons_cons] at hrec ⊢
              have hstep : interpPts ((x1, y1) :: (x2, y2) :: (x3, y3) :: xs''.zip fp''') t
                  = interpPts ((x2, y2) :: (x3, y3) :: xs''.zip fp''') t := by
                simp only [interpPts, if_neg ht1, if_neg ht2]
              rw [hstep, hrec]
              exact ((List.getLastD_cons _ _ _).trans
                (getLastD_cons_irrel y2 (y3 :: fp''') y1 0)).symm

theorem trapezoid_const (c : ℚ) : ∀ x : List ℚ,
    trapezoid (List.replicate x.length c) x = c * (x.getLastD 0 - x.headD 0) := by
  intro x
  induction x with
  | nil => simp [trapezoid_nil_left]
  | cons x1 xs ih =>
    cases xs with
    | nil => simp [trapezoid_single]
    | cons x2 xs' =>
      simp only [List.length_cons, List.replicate_succ, trapezoid] at ih ⊢
      rw [ih]
      have hL : (x1 :: x2 :: xs').getLastD 0 = xs'.getLastD x2 := by
        rw [List.getLastD_cons, List.getLastD_cons]
      have hL2 : (x2 :: xs').getLastD 0 = xs'.getLastD x2 := List.getLastD_cons _ _ _
      rw [hL, hL2]
      simp only [List.headD_cons]
      ring

theorem dotList_replicate (x : ℚ) : ∀ n : ℕ,
    dotList (List.replicate n x) (List.replicate n x) = n * x ^ 2 := by
  intro n
  induction n with
  | zero => simp [dotList]
  | succ m ih =>
    simp only [List.replicate_succ, dotList, ih]
    push_cast
    ring

theorem cosineDistance_self (w : List ℚ) (hw : 0 < dotList w w) :
    cosineDistance w w = 0 := by
  unfold cosineDistance
  have h0 : (0:ℝ) < ((dotList w w : ℚ) : ℝ) := by exact_mod_cast hw
  rw [Real.mul_self_sqrt h0.le, div_self (ne_of_gt h0)]
  ring

end OIPV

namespace OIPV

/-- C9 (amended).  `_pdf_shape_similarity` re-samples both densities onto a
100-point grid spanning `[max of minima, min of maxima]`, renormalizes each
by its trapezoidal integral, and returns `1 - cosine_distance` clamped to
`[0, 1]`; but there is no overlap check: when the strike ranges are disjoint
the grid simply runs backwards from the second range down to the first, both
densities re-sample to their constant clamped boundary values, and (for
positive boundary densities) the similarity returned is 1, not 0. -/
theorem C9_shape_similarity :
    (∀ pdf1 strikes1 pdf2 strikes2 : List ℚ,
      0 ≤ pdf_shape_similarity pdf1 strikes1 pdf2 strikes2 ∧
      pdf_shape_similarity pdf1 strikes1 pdf2 strikes2 ≤ 1) ∧
    (∀ pdf1 strikes1 pdf2 strikes2 : List ℚ,
      strikes1 ≠ [] → strikes2 ≠ [] →
      strikes1.length = pdf1.length → strikes2.length = pdf2.length →
      List.Chain' (· < ·) strikes1 → List.Chain' (· < ·) strikes2 →
      strikes1.getLastD 0 < strikes2.headD 0 →
      0 < pdf1.getLastD 0 → 0 < pdf2.headD 0 →
      pdf_shape_similarity pdf1 strikes1 pdf2 strikes2 = 1) := by
  constructor
  · intro p1 s1 p2 s2
    exact ⟨le_max_left _ _, max_le (by norm_num) (min_le_left _ _)⟩
  · intro p1 s1 p2 s2 hne1 hne2 hlen1 hlen2 hc1 hc2 hdisj hp1 hp2
    obtain ⟨x, xs, rfl⟩ := List.exists_cons_of_ne_nil hne1
    obtain ⟨y, ys, rfl⟩ := List.exists_cons_of_ne_nil hne2
    have hch1le : List.Chain' (· ≤ ·) (x :: xs) :=
      List.Chain'.imp (fun _ _ hab => le_of_lt hab) hc1
    have hch2le : List.Chain' (· ≤ ·) (y :: ys) :=
      List.Chain'.imp (fun _ _ hab => le_of_lt hab) hc2
    set a := (x :: xs).getLastD 0 with ha
    have hb : (y :: ys).headD 0 = y := List.headD_cons
    rw [hb] at hdisj
    have hxa : x ≤ a := chain'_le_getLastD hch1le
    have hylast : y ≤ (y :: ys).getLastD 0 := chain'_le_getLastD hch2le
    have hg : commonGrid (x :: xs) (y :: ys) = linspace y a 100 := by
      unfold commonGrid
      rw [listMin_sorted hch1le, listMin_sorted hch2le,
        listMax_sorted hch1le, listMax_sorted hch2le]
      rw [max_eq_right (by linarith), min_eq_left (by linarith)]
    have hbounds : ∀ t ∈ linspace y a 100, a ≤ t ∧ t ≤ y := fun t ht =>
      linspace_mem_of_ge y a t 100 (by linarith) ht
    have hres1 : resample (linspace y a 100) (x :: xs) p1
        = List.replicate 100 (p1.getLastD 0) := by
      have hconst : ∀ v ∈ resample (linspace y a 100) (x :: xs) p1, v = p1.getLastD 0 := by
        intro v hv
        obtain ⟨t, ht, rfl⟩ := List.mem_map.mp hv
        exact interpPts_ge t (x :: xs) p1 (by simp) hlen1 hc1 (hbounds t ht).1
      have h1 := List.eq_replicate_of_mem hconst
      rw [h1]
      have : (resample (linspace y a 100) (x :: xs) p1).length = 100 := by
        unfold resample
        rw [List.length_map, linspace_length]
      rw [this]
    have hres2 : resample (linspace y a 100) (y :: ys) p2
        = List.replicate 100 (p2.headD 0) := by
      have hconst : ∀ v ∈ resample (linspace y a 100) (y :: ys) p2, v = p2.headD 0 := by
        intro v hv
        obtain ⟨t, ht, rfl⟩ := List.mem_map.mp hv
        unfold npInterp
        rw [interpPts_le t (y :: ys) p2 (by simp) hlen2 (by rw [hb]; exact (hbounds t ht).2)]
      have h1 := List.eq_replicate_of_mem hconst
      rw [h1]
      have : (resample (linspace y a 100) (y :: ys) p2).length = 100 := by
        unfold resample
        rw [List.length_map, linspace_length]
      rw [this]
    have hgl : (linspace y a 100).length = 100 := linspace_length _ _ _
    have hglast : (linspace y a 100).getLastD 0 = a := linspace_getLastD _ _ _ (by norm_num)
    have hghead : (linspace y a 100).headD 0 = y := linspace_headD _ _ _ (by norm_num)
    have hane : a - y ≠ 0 := sub_ne_zero.mpr (ne_of_lt hdisj)
    have htrap : ∀ c : ℚ, trapezoid (List.replicate 100 c) (linspace y a 100)
        = c * (a - y) := by
      intro c
      have h := trapezoid_const c (linspace y a 100)
      rw [hgl, hglast, hghead] at h
      exact h
    have hren : ∀ c : ℚ, c ≠ 0 → renorm (linspace y a 100) (List.replicate 100 c)
        = List.replicate 100 (1 / (a - y)) := by
      intro c hcne
      unfold renorm
      simp only [htrap c, List.map_replicate]
      rw [div_mul_eq_div_div, div_self hcne]
    have hdotpos : 0 < dotList (List.replicate 100 (1 / (a - y)))
        (List.replicate 100 (1 / (a - y))) := by
      rw [dotList_replicate]
      have h2 : (0:ℚ) < (1 / (a - y)) ^ 2 := by
        rw [sq]
        have hneg : 1 / (a - y) < 0 := one_div_neg.mpr (by linarith)
        exact mul_pos_of_neg_of_neg hneg hneg
      have h100 : (0:ℚ) < ((100:ℕ):ℚ) := by norm_num
      exact mul_pos h100 h2
    have hcos := cosineDistance_self _ hdotpos
    unfold pdf_shape_similarity
    rw [hg, hres1, hres2, hren _ (ne_of_gt hp1), hren _ (ne_of_gt hp2), hcos]
    norm_num

end OIPV

namespace OIPV

/-! ### Concrete instantiations: counterexamples and witnesses

The rational arithmetic of the embedding is evaluated by the kernel here;
`Rat.add` and friends are restored to default reducibility for that purpose
within this section only. -/

section ConcreteEvaluation

attribute [local semireducible] Rat.add Rat.mul Rat.sub Rat.inv

set_option maxRecDepth 100000

/-- C1 witness: a concrete successful extraction (3 quotes, 6 grid points,
quadratic price curve) whose returned density integrates to 1. -/
theorem C1_mass_conservation_witness :
    (calculate_from_options exCfg exParams exQuotes 1 0 1 "call" "spline").isOk = true ∧
    |trapezoid (pdfOf (calculate_from_options exCfg exParams exQuotes 1 0 1 "call" "spline"))
      (gridOf (calculate_from_options exCfg exParams exQuotes 1 0 1 "call" "spline")) - 1|
      ≤ 1/100 :=
  ⟨by decide, C1_mass_conservation exCfg exParams exQuotes 1 0 1 "call" "spline" (by decide)⟩

/-- C2 witness: the same chain extracted through the SABR path has an
entrywise non-negative density. -/
theorem C2_density_nonneg_witness :
    (calculate_from_options exCfg exParams exQuotes 1 0 1 "call" "sabr").isOk = true ∧
    allNonneg (pdfOf (calculate_from_options exCfg exParams exQuotes 1 0 1 "call" "sabr")) :=
  ⟨by decide, C2_density_nonneg exCfg exParams exQuotes 1 0 1 "call" "sabr" (by decide)⟩

/-- C3 witness: a successful extraction on an odd-sized grid whose stored
CDF is non-decreasing from 0 to exactly 1. -/
theorem C3_cdf_monotone_witness :
    (calculate_from_options exCfgOdd exParams exQuotes 1 0 1 "call" "spline").isOk = true ∧
    (List.Chain' (· ≤ ·)
        (cdfOf (calculate_from_options exCfgOdd exParams exQuotes 1 0 1 "call" "spline")) ∧
      (cdfOf (calculate_from_options exCfgOdd exParams exQuotes 1 0 1 "call" "spline")).headD 0
        = 0 ∧
      (cdfOf (calculate_from_options exCfgOdd exParams exQuotes 1 0 1 "call" "spline")).getLastD 0
        = 1) :=
  ⟨by decide, C3_cdf_monotone exCfgOdd exParams exQuotes 1 0 1 "call" "spline" (by decide)⟩

/-- C4 counterexample: both optimizer attempts report failure on 3 valid
strikes, yet `calibrate_volatility_surface` returns the SABR model built
from the failed optimization (flag `success = false`), not the spline
fallback the claim promises - the fallback fires only on exceptions, and an
unsuccessful `minimize` does not raise. -/
theorem C4_counterexample :
    calibrate_volatility_surface ⟨1, 2, 3, false⟩ ⟨4, 5, 6, false⟩ SABR_BETA
      [1, 2, 3] [1/5, 1/5, 1/5] 2 1 "sabr"
      = .ok (.sabr ⟨4, 5, 6, SABR_BETA, 2, 1, false⟩, false) := by decide

/-- C4 witness: with fewer than 3 valid strikes the SABR exception is caught
and the spline path runs; with 3 valid strikes and a successful first
attempt the SABR model of that attempt is returned. -/
theorem C4_sabr_fallback_witness :
    ((validPairs [1, 2] [1/5, 1/5]).length < 3 ∧
      calibrate_volatility_surface ⟨1, 2, 3, false⟩ ⟨4, 5, 6, false⟩ SABR_BETA
        [1, 2] [1/5, 1/5] 2 1 "sabr"
        = (splineCalibrate [1, 2] [1/5, 1/5]).map (fun pts => (VolModel.spline pts, true))) ∧
    (¬ (validPairs [2, 3, 4] [1/5, 1/5, 1/5]).length < 3 ∧
      calibrate_volatility_surface ⟨1, 2, 3, true⟩ ⟨4, 5, 6, false⟩ SABR_BETA
        [2, 3, 4] [1/5, 1/5, 1/5] 2 1 "sabr"
        = .ok (.sabr ⟨1, 2, 3, SABR_BETA, 2, 1, true⟩, true)) :=
  ⟨⟨by decide,
    (C4_sabr_fallback ⟨1, 2, 3, false⟩ ⟨4, 5, 6, false⟩ SABR_BETA [1, 2] [1/5, 1/5] 2 1).1
      (by decide)⟩,
   ⟨by decide,
    ((C4_sabr_fallback ⟨1, 2, 3, true⟩ ⟨4, 5, 6, false⟩ SABR_BETA
        [2, 3, 4] [1/5, 1/5, 1/5] 2 1).2 (by decide)).trans (by decide)⟩⟩

/-- C5 witness: with only 1 surviving quote under the default configuration,
the extraction fails with the insufficient-data message naming the count. -/
theorem C5_insufficient_data_witness :
    (filteredQuotes defaultConfig [⟨1, 1, 1/5⟩, ⟨3, 1, 1/5⟩] 1).length
      < defaultConfig.minStrikesForPDF ∧
    calculate_from_options defaultConfig exParams [⟨1, 1, 1/5⟩, ⟨3, 1, 1/5⟩] 1 0 1 "call" "sabr"
      = .error ("Need at least 10 strikes, got 1") :=
  ⟨by decide,
   ((C5_insufficient_data defaultConfig exParams [⟨1, 1, 1/5⟩, ⟨3, 1, 1/5⟩]
      1 0 1 "call" "sabr").2.1 (by decide)).trans (by decide)⟩

/-- C6 witness: a concave price curve makes the raw second derivative
everywhere negative, and the concrete extraction fails with the
degenerate-density error. -/
theorem C6_degenerate_density_witness :
    ((rawDensity (strikeGrid exCfgOdd 1)
        (gridPrices exCfgOdd exParamsNeg
          (VolModel.spline [(4/5, 1/5), (1, 1/5), (6/5, 1/5)]) 1 "call")
        exParamsNeg.expRT).all (fun v => decide (v < 0)) = true) ∧
    calculate_from_options exCfgOdd exParamsNeg exQuotes 1 0 1 "call" "spline"
      = .error ("PDF integral is zero or negative - invalid PDF") :=
  ⟨by decide,
   (C6_degenerate_density exCfgOdd exParamsNeg exQuotes 1 0 1 "call" "spline"
      (VolModel.spline [(4/5, 1/5), (1, 1/5), (6/5, 1/5)]) true
      (by decide) (by decide) (by decide) (by decide)).2⟩

/-- C7 counterexample: an all-zero density reaches the unguarded division in
`calculate_percentile` (result `none`, i.e. nan in the source), while
`_calculate_cdf` in the extractor guards the same division and returns the
unnormalized array instead. -/
theorem C7_counterexample :
    calculate_percentile [1, 2] [0, 0] 50 = none ∧
    calculate_cdf [1, 2] [0, 0] = [0, 0] := by decide

/-- C7 witness: the skewness/kurtosis zero-std guards at concrete inputs,
and the percentile division-by-zero path at an all-zero density. -/
theorem C7_division_guards_witness :
    calculate_skewness [1, 2] [1, 1] (3/2) 0 = 0 ∧
    calculate_kurtosis [1, 2] [1, 1] (3/2) 0 = 0 ∧
    ((cumtrapz [0, 0] [0, 1]).getLastD 0 = 0 ∧
      calculate_percentile [0, 1] [0, 0] 99 = none) :=
  ⟨C7_division_guards.1 [1, 2] [1, 1] (3/2),
   C7_division_guards.2.1 [1, 2] [1, 1] (3/2),
   by decide,
   C7_division_guards.2.2 [0, 1] [0, 0] 99 (by decide)⟩

/-- C8 counterexample: exactly 2 valid points remain - fewer than 3 - yet
the spline path succeeds instead of failing with a calibration error. -/
theorem C8_counterexample :
    (validPairs [1, 2] [1/5, 3/10]).length = 2 ∧
    (splineCalibrate [1, 2] [1/5, 3/10]).isOk = true := by decide

/-- C8 witness: the SABR under-3 failure, a 2-point spline success, and the
under-2 spline constructor failure, each at concrete inputs. -/
theorem C8_calibration_filter_witness :
    ((validPairs [5] [1/5]).length < 3 ∧
      sabrCalibrate ⟨1, 1, 1, true⟩ ⟨1, 1, 1, true⟩ SABR_BETA [5] [1/5] 1 1
        = .error ("Need at least 3 valid strikes for calibration")) ∧
    (2 ≤ (validPairs [1, 3] [1/5, 2/5]).length ∧
      (splineCalibrate [1, 3] [1/5, 2/5]).isOk = true) ∧
    ((validPairs [7] [2/5]).length < 2 ∧
      splineCalibrate [7] [2/5] = .error ("x must contain at least 2 elements")) :=
  ⟨⟨by decide,
    (C8_calibration_filter [5] [1/5]).2.1 (by decide) ⟨1, 1, 1, true⟩ ⟨1, 1, 1, true⟩
      SABR_BETA 1 1⟩,
   ⟨by decide, (C8_calibration_filter [1, 3] [1/5, 2/5]).2.2.1 (by decide) (by decide)⟩,
   ⟨by decide, (C8_calibration_filter [7] [2/5]).2.2.2 (by decide)⟩⟩

/-- C9 counterexample: two strike ranges that do not overlap (first entirely
below second), for which the claimed similarity-0 guard does not exist: the
code resamples both densities to constants on a backwards grid and returns
similarity 1. -/
theorem C9_counterexample :
    listMax [0, 10] < listMin [20, 30] ∧
    pdf_shape_similarity [1, 1] [0, 10] [1, 1] [20, 30] = 1 := by
  refine ⟨by decide, ?_⟩
  have h1 : renorm (commonGrid [0, 10] [20, 30])
      (resample (commonGrid [0, 10] [20, 30]) [0, 10] [1, 1])
      = List.replicate 100 (-(1/10)) := by decide
  have h2 : renorm (commonGrid [0, 10] [20, 30])
      (resample (commonGrid [0, 10] [20, 30]) [20, 30] [1, 1])
      = List.replicate 100 (-(1/10)) := by decide
  have hdot : (0:ℚ) < dotList (List.replicate 100 (-(1/10)))
      (List.replicate 100 (-(1/10))) := by decide
  unfold pdf_shape_similarity
  rw [h1, h2, cosineDistance_self _ hdot]
  norm_num

/-- C9 witness: the amended disjoint-range behavior at a concrete input with
strictly increasing strike vectors and positive boundary densities. -/
theorem C9_shape_similarity_witness :
    ([1, 2] : List ℚ).getLastD 0 < ([3, 4] : List ℚ).headD 0 ∧
    pdf_shape_similarity [1, 2] [1, 2] [5, 6] [3, 4] = 1 :=
  ⟨by decide,
   C9_shape_similarity.2 [1, 2] [1, 2] [5, 6] [3, 4] (by decide) (by decide) rfl rfl
     (by norm_num [List.chain'_cons]) (by norm_num [List.chain'_cons])
     (by decide) (by decide) (by decide)⟩

/-- C10 witness: a fitted state queried with an invalid condition raises,
and the below/above results at the same level sum to exactly 1, with the
state unchanged. -/
theorem C10_get_probability_witness :
    get_probability ⟨some [1, 1], some [1, 2], some [0, 1]⟩ (3/2) "between"
      = (.error ("condition must be below or above"),
         ⟨some [1, 1], some [1, 2], some [0, 1]⟩) ∧
    ((get_probability ⟨some [1, 1], some [1, 2], some [0, 1]⟩ (3/2) "below").1 = .ok (1/2) ∧
     (get_probability ⟨some [1, 1], some [1, 2], some [0, 1]⟩ (3/2) "above").1 = .ok (1/2) ∧
     (1/2 : ℚ) + 1/2 = 1) :=
  ⟨(C10_get_probability ⟨some [1, 1], some [1, 2], some [0, 1]⟩ (3/2) [0, 1] [1, 2]
      rfl rfl).1 "between" (by decide) (by decide),
   by decide, by decide,
   (C10_get_probability ⟨some [1, 1], some [1, 2], some [0, 1]⟩ (3/2) [0, 1] [1, 2]
      rfl rfl).2.2.2 (1/2) (1/2) (by decide) (by decide)⟩

end ConcreteEvaluation

end OIPV
